import Mathlib

/-!
Verification of the go-request HTTP helper library (github.com/gildas/go-request).

This file shallowly embeds the request-sending pipeline of the repository:
the `Content` value object and its constructor `ContentWithData` (content.go,
current revision with gzip handling), the AES-CTR encrypt/decrypt helpers
(content_crypto.go), option normalization (`normalizeOptions`), payload
normalization (`buildRequestContent`, including multipart construction), and
the retry/backoff loop of `Send` (request.go).

Modelling conventions:
- Go byte slices are `List Nat` (each element a byte value).
- `uint64` is `Nat`; conversions from signed integers go through `% 2^64`
  (two's-complement reinterpretation), mirroring Go's `uint64(x)`.
- `time.Duration` quantities are nanosecond counts; `Int` where Go can be
  negative.  Delays configured in whole seconds are carried as second counts
  (`interAttemptDelaySecs`), so Go's `math.Pow(delay.Seconds(), k)` is the
  exact integer power `delaySecs ^ k` (exact for whole-second delays, the
  case the spec and tests exercise).
- External collaborators (gzip decompression, the MIME-by-extension table,
  url-encoding, the multipart wire encoding, the AES key stream, the network
  transport) are oracle parameters bundled in `Ext` / `SendEnv`; the embedded
  code is fully executable once concrete oracles are supplied.
- `nil` Go maps/pointers are `Option.none`; fallible calls return `Except`.
-/

namespace GoRequest

/-- One HTTP header: association list in insertion order; `http.Header.Get`
returns the first value for a key (keys are assumed canonical, as everywhere
in the source). -/
abbrev Header := List (String × String)

/-- `http.Header.Get`: first value for the key, or `""` when absent. -/
def hGet : Header → String → String
  | [], _ => ""
  | (k, v) :: rest, key => if k = key then v else hGet rest key

/-- `Get` on a possibly-nil (`none`) header map: Go's `Get` on a nil
`http.Header` returns `""`. -/
def hGetOpt : Option Header → String → String
  | none, _ => ""
  | some h, key => hGet h key

/-- A cookie, reduced to its name/value pair (the crypto and send paths copy
cookies wholesale and never inspect the other fields). -/
abbrev Cookie := String × String

/-- `Content` (content.go): a byte payload plus metadata.  The Go field
`Type` is rendered `ctype` (`Type` is a Lean keyword); `Length` is `uint64`,
hence `Nat`. -/
structure Content where
  ctype : String := ""
  Name : String := ""
  URL : Option String := none
  Length : Nat := 0
  Data : List Nat := []
  Headers : Option Header := none
  Cookies : List Cookie := []
  deriving Repr, DecidableEq

/-- Go's `uint64(x)` on a signed integer: two's-complement reinterpretation,
i.e. reduction modulo `2^64`. -/
def uint64OfInt (n : Int) : Nat := (n % (2 ^ 64 : Int)).toNat

/-- The variadic option bag accepted by `ContentWithData`, one constructor
per arm of the Go type switch (in source order: `*url.URL`, `*logger.Logger`,
`int64`, `uint64`, `uint`, `int`, `string`, `http.Header`,
`[]*http.Cookie`). -/
inductive ContentOption where
  | urlOpt (u : String)
  | logOpt
  | int64Len (n : Int)
  | uint64Len (n : Nat)
  | uintLen (n : Nat)
  | intLen (n : Int)
  | typeOpt (t : String)
  | headersOpt (h : Header)
  | cookiesOpt (c : List Cookie)
  deriving Repr, DecidableEq

/-- Apply one option to a content under construction (the body of the Go
`switch` in `ContentWithData`). -/
def applyOption (c : Content) : ContentOption → Content
  | .urlOpt u => { c with URL := some u }
  | .logOpt => c
  | .int64Len n => { c with Length := uint64OfInt n }
  | .uint64Len n => { c with Length := n }
  | .uintLen n => { c with Length := n }
  | .intLen n => { c with Length := uint64OfInt n }
  | .typeOpt t => { c with ctype := t }
  | .headersOpt h => { c with Headers := some h }
  | .cookiesOpt ck => { c with Cookies := ck }

/-- The option-processing loop of `ContentWithData`. -/
def applyOptions (c : Content) : List ContentOption → Content
  | [] => c
  | o :: rest => applyOptions (applyOption c o) rest

/-- The gzip block of `ContentWithData` (content.go): when the headers
declare `Content-Encoding: gzip`, replace the data with its decompression
and the length with the decompressed size; a decompression failure keeps
the content untouched.  `gunzip` is the oracle for
`gzip.NewReader` + `io.ReadAll` (`none` models either step failing). -/
def gzipStage (gunzip : List Nat → Option (List Nat)) (c : Content) : Content :=
  if hGetOpt c.Headers "Content-Encoding" = "gzip" then
    match gunzip c.Data with
    | some uncompressed => { c with Data := uncompressed, Length := uncompressed.length }
    | none => c
  else c

/-- `if content.Length == 0 { content.Length = uint64(len(content.Data)) }`
(content.go). -/
def defaultLengthStage (c : Content) : Content :=
  if c.Length = 0 then { c with Length := c.Data.length } else c

/-- `if content.Headers == nil { content.Headers = http.Header{} }`
(content.go). -/
def defaultHeadersStage (c : Content) : Content :=
  if c.Headers = none then { c with Headers := some [] } else c

/-- `ContentWithData` (content.go): apply the option bag over the data,
run the gzip block, then default a zero length to `len(data)` and a nil
header map to an empty one. -/
def contentWithData (gunzip : List Nat → Option (List Nat)) (data : List Nat)
    (options : List ContentOption) : Content :=
  defaultHeadersStage (defaultLengthStage (gzipStage gunzip (applyOptions { Data := data } options)))

/-- `ContentFromReader` (content.go): drain the reader (`readResult` is the
oracle for `io.ReadAll`; `.error` models a read failure, surfaced as an
error), then `ContentWithData`. -/
def contentFromReader (gunzip : List Nat → Option (List Nat))
    (readResult : Except Unit (List Nat)) (options : List ContentOption) :
    Except Unit Content :=
  match readResult with
  | .error e => .error e
  | .ok data => .ok (contentWithData gunzip data options)

/-- The error taxonomy of the library (github.com/gildas/go-errors as used by
this repository): each constructor records exactly the data the source puts
into the error. -/
inductive RequestError where
  | argumentMissing (what : String)
  | argumentInvalid (what : String) (value : Option String)
  | invalidType (t : String)
  | jsonMarshalError
  | httpStatus (code : Nat)
  | requestTimeoutGiveUp (attempts : Nat)
  | transportWrapped (e : String)
  | transportRaw (e : String)
  | readError
  | msg (s : String)
  deriving Repr, DecidableEq

/-- `CryptoAlgorithm` (content_crypto.go). -/
inductive CryptoAlgorithm where
  | NONE
  | AESCTR
  deriving Repr, DecidableEq

/-- XOR a byte list against a key stream starting at position `i`:
`cipher.NewCTR(..., zero IV).XORKeyStream`, with `ks` the oracle for the
AES-CTR key stream of a given key. -/
def xorStream (ks : Nat → Nat) : Nat → List Nat → List Nat
  | _, [] => []
  | i, b :: rest => Nat.xor b (ks i) :: xorStream ks (i + 1) rest

/-- `aes.NewCipher` succeeds exactly for 16-, 24- and 32-byte keys. -/
def validAESKeyLength (key : List Nat) : Bool :=
  key.length = 16 || key.length = 24 || key.length = 32

/-- `Content.DecryptWithAESCTR` (content_crypto.go): reject invalid key
sizes with an argument-invalid error, otherwise XOR the data against the
key stream, copying every metadata field. -/
def decryptWithAESCTR (ks : List Nat → Nat → Nat) (key : List Nat) (content : Content) :
    Except RequestError Content :=
  if validAESKeyLength key then
    .ok { ctype := content.ctype
          Name := content.Name
          URL := content.URL
          Headers := content.Headers
          Cookies := content.Cookies
          Length := content.Length
          Data := xorStream (ks key) 0 content.Data }
  else
    .error (.argumentInvalid "key" none)

/-- `Content.EncryptWithAESCTR` (content_crypto.go): same body as
decryption (CTR mode is an involution). -/
def encryptWithAESCTR (ks : List Nat → Nat → Nat) (key : List Nat) (content : Content) :
    Except RequestError Content :=
  if validAESKeyLength key then
    .ok { ctype := content.ctype
          Name := content.Name
          URL := content.URL
          Headers := content.Headers
          Cookies := content.Cookies
          Length := content.Length
          Data := xorStream (ks key) 0 content.Data }
  else
    .error (.argumentInvalid "key" none)

/-- `Content.Decrypt` (content_crypto.go): dispatch on the algorithm. -/
def Content.Decrypt (ks : List Nat → Nat → Nat) (content : Content)
    (algorithm : CryptoAlgorithm) (key : List Nat) : Except RequestError Content :=
  match algorithm with
  | .NONE => .ok content
  | .AESCTR => decryptWithAESCTR ks key content

/-- `Content.Encrypt` (content_crypto.go): dispatch on the algorithm. -/
def Content.Encrypt (ks : List Nat → Nat → Nat) (content : Content)
    (algorithm : CryptoAlgorithm) (key : List Nat) : Except RequestError Content :=
  match algorithm with
  | .NONE => .ok content
  | .AESCTR => encryptWithAESCTR ks key content

/-- A readable stream supplied as `Options.Payload`: its `io.Seeker`
capability, its Go runtime type name (`fmt.Sprintf("%T", ...)`), and the
bytes an `io.ReadAll` drain yields (`.error` = read failure). -/
structure StreamDescr where
  isSeeker : Bool
  typeName : String
  bytes : Except Unit (List Nat)

/-- The `Options.Attachment` stream (`io.Reader` by its field type): seeker
capability and runtime type name for the normalization gate, plus the
behaviour of `Seek(0, io.SeekStart)` and of the n-th `io.Copy` drain
(`.error ()` = copy failure, `.ok n` = n bytes copied). -/
structure AttachDescr where
  isSeeker : Bool
  typeName : String
  seekOk : Bool := true
  copy : Nat → Except Unit Nat := fun _ => .ok 0
  bytes : Except Unit (List Nat) := .ok []

/-- The dynamic shape of `Options.Payload`, one constructor per arm of the
runtime type dispatch in `buildRequestContent` (in source order: `Content`,
`*Content`, `io.Reader`, struct or pointer-to-struct, array/slice, map,
anything else).  External marshalling outcomes are carried as oracle data:
`marshalled` is the `json.Marshal` result, `asBytes` the `[]byte` view of an
array/slice payload, `attrs` the string attributes collected from a map
payload (non-`Stringer` values already dropped, in iteration order). -/
inductive Payload where
  | contentVal (c : Content)
  | contentPtr (c : Content)
  | readerPayload (s : StreamDescr)
  | structVal (typeName : String) (marshalled : Except Unit (List Nat))
  | arraySlice (typeName : String) (marshalled : Except Unit (List Nat)) (asBytes : List Nat)
  | mapStr (attrs : List (String × String)) (marshalled : Except Unit (List Nat))
  | unsupported (typeName : String)

/-- The `results` argument of `Send`: `nil`, an `io.Writer` sink, or a value
to JSON-decode into. -/
inductive ResultsKind where
  | noResults
  | writerResults
  | valueResults
  deriving Repr, DecidableEq

/-- `Options` (request.go), restricted to the fields the request-sending
core reads.  Durations are whole seconds (`interAttemptDelaySecs`,
`interAttemptBackoffIntervalSecs`) or nanoseconds (`timeoutNs`); `urlPresent`
models `URL != nil` and `urlPath` the URL path.  Logging, request-id
generation, query-parameter merging, proxy and transport setup are omitted:
they have no bearing on the verified behaviour. -/
structure Options where
  urlPresent : Bool := true
  urlPath : String := ""
  method : String := ""
  accept : String := ""
  payloadType : String := ""
  payload : Option Payload := none
  attachmentType : String := ""
  attachment : Option AttachDescr := none
  retryableStatusCodes : List Nat := []
  attempts : Nat := 0
  interAttemptDelaySecs : Nat := 0
  interAttemptBackoffIntervalSecs : Nat := 0
  interAttemptUseRetryAfter : Bool := false
  timeoutNs : Nat := 0

/-- Does the payload trip the seekability gate of `normalizeOptions`?  Only
a payload that is an `io.Reader` without `io.Seeker` does; all other payload
shapes pass. -/
def payloadSeekViolation : Option Payload → Bool
  | some (.readerPayload s) => !s.isSeeker
  | _ => false

/-- The `Accept` default of `normalizeOptions` (request.go):
`"application/json"` when decoding into a value, else `"*"`. -/
def defaultAccept (options : Options) (results : ResultsKind) : Options :=
  if options.accept = "" then
    { options with accept :=
        if results ≠ .writerResults ∧ results ≠ .noResults then "application/json" else "*" }
  else options

/-- `if options.Timeout == 0 { options.Timeout = DefaultTimeout }` (2s). -/
def defaultTimeout (options : Options) : Options :=
  if options.timeoutNs = 0 then { options with timeoutNs := 2000000000 } else options

/-- `if options.Attempts < 1 { options.Attempts = DefaultAttempts }` (5). -/
def defaultAttempts (options : Options) : Options :=
  if options.attempts < 1 then { options with attempts := 5 } else options

/-- `if options.InterAttemptDelay < 1s { ... = DefaultInterAttemptDelay }` (3s). -/
def defaultDelay (options : Options) : Options :=
  if options.interAttemptDelaySecs < 1 then { options with interAttemptDelaySecs := 3 } else options

/-- `if options.InterAttemptBackoffInterval < 1s { ... = Default... }` (5min). -/
def defaultBackoff (options : Options) : Options :=
  if options.interAttemptBackoffIntervalSecs < 1 then
    { options with interAttemptBackoffIntervalSecs := 300 } else options

/-- `if len(options.RetryableStatusCodes) == 0 { ... = {429, 502, 503, 504} }`. -/
def defaultRetryCodes (options : Options) : Options :=
  if options.retryableStatusCodes = [] then
    { options with retryableStatusCodes := [429, 502, 503, 504] } else options

/-- The defaulting prefix of `normalizeOptions` (request.go), in source
order. -/
def applyDefaults (options : Options) (results : ResultsKind) : Options :=
  defaultRetryCodes (defaultBackoff (defaultDelay (defaultAttempts (defaultTimeout
    (defaultAccept options results)))))

/-- `normalizeOptions` (request.go): URL-presence check, the defaults of
`applyDefaults`, and — when `attempts > 1` — the seekability gate on payload
and attachment, failing with `ArgumentInvalid` carrying the offending
value's runtime type. -/
def normalizeOptions (options : Options) (results : ResultsKind) :
    Except RequestError Options :=
  if options.urlPresent = false then .error (.argumentMissing "URL")
  else
    let options := applyDefaults options results
    if options.attempts > 1 then
      match options.payload with
      | some (.readerPayload s) =>
        if s.isSeeker = false then .error (.argumentInvalid "Payload" (some s.typeName))
        else
          match options.attachment with
          | some a =>
            if a.isSeeker = false then .error (.argumentInvalid "Attachment" (some a.typeName))
            else .ok options
          | none => .ok options
      | _ =>
        match options.attachment with
        | some a =>
          if a.isSeeker = false then .error (.argumentInvalid "Attachment" (some a.typeName))
          else .ok options
        | none => .ok options
    else .ok options

/-- One part of a multipart body: a file part (field name, filename, bytes
copied from the attachment) or a plain field. -/
inductive MultipartPart where
  | filePart (name filename : String) (written : Nat)
  | fieldPart (name value : String)
  deriving Repr, DecidableEq

/-- External collaborators of the pipeline, as oracles: gzip decompression,
`url.Values.Encode`, the multipart wire encoding and its boundary-bearing
content type, and `mime.TypeByExtension ∘ filepath.Ext` applied to a URL
path. -/
structure Ext where
  gunzip : List Nat → Option (List Nat) := fun _ => none
  formEncode : List (String × String) → List Nat := fun _ => []
  multipartEncode : List MultipartPart → List Nat := fun _ => []
  formDataContentType : String := "multipart/form-data"
  mimeByExt : String → String := fun _ => ""

/-- `strings.HasPrefix` (computed over the character data so it evaluates
in the kernel). -/
def strStartsWith (s pre : String) : Bool := pre.data.isPrefixOf s.data

/-- The multipart construction loop of `buildRequestContent` (request.go):
walk the attributes in iteration order; a `>`-prefixed key is a file part —
strip one `>`, reject an empty key, then an empty filename, then (when
`attempts > 1`) a failing seek, then a failing copy, then a zero-byte copy;
any other key is a plain field (writing a field or creating a part against
the in-memory buffer cannot fail).  The counter indexes successive copies
from the single attachment stream. -/
def buildMultipartBody (attempts : Nat) (attach : AttachDescr) :
    Nat → List (String × String) → Except RequestError (List MultipartPart)
  | _, [] => .ok []
  | cidx, (key, value) :: rest =>
    if strStartsWith key ">" then
      let k := key.drop 1
      if k = "" then .error (.msg "Empty key for multipart form field with attachment")
      else if value = "" then .error (.msg ("Empty value for multipart form field " ++ k))
      else if attempts > 1 ∧ attach.seekOk = false then
        .error (.msg ("Failed to seek to beginning of attachment for field " ++ k))
      else
        match attach.copy cidx with
        | .error _ => .error (.msg ("Failed to write attachment to multipart form field " ++ k))
        | .ok written =>
          if written = 0 then
            .error (.msg ("Missing/Empty Attachment for multipart form field " ++ k))
          else
            match buildMultipartBody attempts attach (cidx + 1) rest with
            | .error e => .error e
            | .ok parts => .ok (.filePart k value written :: parts)
    else
      match buildMultipartBody attempts attach cidx rest with
      | .error e => .error e
      | .ok parts => .ok (.fieldPart key value :: parts)

/-- The runtime type dispatch of `buildRequestContent` once the payload is
known to be non-nil (request.go): pre-built `Content` values pass through
with the type defaulting rules; readers are drained (a failed drain leaves
the content nil, surfacing the final argument-invalid error); structs and
arrays/slices are JSON-marshalled unless an explicit octet-stream type keeps
raw bytes; maps become a url-encoded form or, with an attachment, a
multipart body; anything else ends with `ArgumentInvalid.With("payload")`
— note: without the runtime type name. -/
def buildFromPayload (ext : Ext) (options : Options) (payload : Payload) :
    Except RequestError Content :=
  match payload with
  | .contentVal c =>
    .ok { c with ctype :=
            if options.payloadType ≠ "" then options.payloadType
            else if c.ctype = "" then "application/octet-stream" else c.ctype }
  | .contentPtr c =>
    .ok { c with ctype :=
            if options.payloadType ≠ "" then options.payloadType
            else if c.ctype = "" then "application/octet-stream" else c.ctype }
  | .readerPayload s =>
    match s.bytes with
    | .error _ => .error (.argumentInvalid "payload" none)
    | .ok data => .ok (contentWithData ext.gunzip data [.typeOpt options.payloadType, .intLen 0])
  | .structVal _ marshalled =>
    let pt := if options.payloadType = "" then "application/json" else options.payloadType
    match marshalled with
    | .error _ => .error .jsonMarshalError
    | .ok payload => .ok (contentWithData ext.gunzip payload [.typeOpt pt])
  | .arraySlice _ marshalled asBytes =>
    if options.payloadType = "application/octet-stream" then
      .ok (contentWithData ext.gunzip asBytes [.typeOpt options.payloadType])
    else
      match marshalled with
      | .error _ => .error .jsonMarshalError
      | .ok payload => .ok (contentWithData ext.gunzip payload [.typeOpt "application/json"])
  | .mapStr attrs marshalled =>
    if options.payloadType = "application/json" then
      match marshalled with
      | .error _ => .error .jsonMarshalError
      | .ok payload => .ok (contentWithData ext.gunzip payload [.typeOpt options.payloadType])
    else
      match options.attachment with
      | none =>
        let pt := if options.payloadType = "" then "application/x-www-form-urlencoded" else options.payloadType
        .ok (contentWithData ext.gunzip (ext.formEncode attrs) [.typeOpt pt])
      | some attach =>
        match buildMultipartBody options.attempts attach 0 attrs with
        | .error e => .error e
        | .ok parts =>
          .ok (contentWithData ext.gunzip (ext.multipartEncode parts)
                [.typeOpt ext.formDataContentType])
  | .unsupported _ => .error (.argumentInvalid "payload" none)

/-- `buildRequestContent` (request.go): a nil payload without attachment is
an empty `Content`; a nil payload with an attachment promotes the attachment
to payload (adopting the attachment type when set); otherwise dispatch on
the payload shape. -/
def buildRequestContent (ext : Ext) (options : Options) : Except RequestError Content :=
  match options.payload with
  | none =>
    match options.attachment with
    | none => .ok {}
    | some a =>
      let options :=
        if options.attachmentType ≠ "" then { options with payloadType := options.attachmentType }
        else options
      buildFromPayload ext options (.readerPayload ⟨a.isSeeker, a.typeName, a.bytes⟩)
  | some p => buildFromPayload ext options p

/-- `core.Atoi(s, fallback)`: parse a (possibly signed) decimal integer,
returning the fallback on a parse failure. -/
def atoi (s : String) (fallback : Int) : Int := (s.toInt?).getD fallback

/-- Nanoseconds per second (`time.Second`). -/
def nsPerSec : Int := 1000000000

/-- Equality of `Except` values is decidable when it is on both sides. -/
def exceptDecEq {e a : Type} [DecidableEq e] [DecidableEq a] : DecidableEq (Except e a)
  | .error x, .error y =>
    if h : x = y then .isTrue (by rw [h]) else .isFalse (fun hh => h (by injection hh))
  | .error _, .ok _ => .isFalse (fun hh => Except.noConfusion hh)
  | .ok _, .error _ => .isFalse (fun hh => Except.noConfusion hh)
  | .ok x, .ok y =>
    if h : x = y then .isTrue (by rw [h]) else .isFalse (fun hh => h (by injection hh))

instance {e a : Type} [DecidableEq e] [DecidableEq a] : DecidableEq (Except e a) := exceptDecEq

/-- One HTTP response as `Send` observes it: status, headers, cookies, and
the outcome of draining the body (`.error ()` = body read failure). -/
structure Response where
  status : Nat
  headers : Header
  cookies : List Cookie
  bodyRead : Except Unit (List Nat)
  deriving Repr, DecidableEq

/-- What `httpclient.Do` produces on one attempt: a response, or a transport
error in one of the classes the retry loop distinguishes — a
`net.OpError`/`ECONNRESET`, a `url.Error` that is a timeout / temporary /
unexpected-EOF / deadline-exceeded (retryable), a `url.Error` that is none
of those (fatal), or any other error.  The string is an opaque identity for
the underlying error. -/
inductive AttemptOutcome where
  | ok (res : Response)
  | connReset (e : String)
  | urlErrRetryable (e : String)
  | urlErrFatal (e : String)
  | otherErr (e : String)
  deriving Repr, DecidableEq

/-- The world the retry loop runs against: the transport outcome of each
attempt (0-based) and the wall-clock nanoseconds elapsed since the `Send`
call started, sampled at attempt i's retry decision (`time.Since(start)`). -/
structure SendEnv where
  outcomes : Nat → AttemptOutcome
  elapsedNs : Nat → Nat

/-- One sleep performed by the retry loop: a fixed inter-attempt delay after
a retryable transport error, or the computed wait after a retryable HTTP
status. -/
inductive WaitEvent where
  | transportWait (ns : Int)
  | statusWait (status : Nat) (ns : Int)
  deriving Repr, DecidableEq

/-- Observable trace of one `Send` call: the `X-Attempt` header values set
(1-based, in order) and the sleeps performed between attempts. -/
structure SendTrace where
  xAttempts : List Nat
  waits : List WaitEvent
  deriving Repr, DecidableEq

/-- The `(Content, error)` pair `Send` returns: success, a content together
with an error (the ≥ 400 terminal path), or a bare error. -/
inductive SendResult where
  | ok (c : Content)
  | contentAndError (c : Content) (e : RequestError)
  | err (e : RequestError)
  deriving Repr, DecidableEq

/-- The attempt loop of `Send` (request.go, lines 113-258), recursing on the
remaining attempt budget (`remaining = attempts - i` on entry).  Each
iteration stamps `X-Attempt = i+1`; transport errors retry with a fixed
`interAttemptDelay` sleep while attempts remain (a retryable error on the
last attempt breaks out to the give-up error); a status ≥ 400 in the
retryable set with attempts remaining sleeps the Retry-After-plus-one-second
or stepped-exponential wait and retries; a terminal ≥ 400 status buffers the
body and returns it with the status-derived error; a status < 400
materializes the response per the `results` kind, resolving the content
type (jpg alias correction, Accept fallback, MIME-by-extension lookup). -/
def sendLoop (ext : Ext) (env : SendEnv) (opts : Options) (results : ResultsKind) :
    Nat → Nat → SendTrace × SendResult
  | _, 0 => (⟨[], []⟩, .err (.requestTimeoutGiveUp opts.attempts))
  | i, r + 1 =>
    match env.outcomes i with
    | .connReset _ =>
      if 1 ≤ r then
        let rest := sendLoop ext env opts results (i + 1) r
        (⟨(i + 1) :: rest.1.xAttempts,
          .transportWait ((opts.interAttemptDelaySecs : Int) * nsPerSec) :: rest.1.waits⟩, rest.2)
      else (⟨[i + 1], []⟩, .err (.requestTimeoutGiveUp opts.attempts))
    | .urlErrRetryable _ =>
      if 1 ≤ r then
        let rest := sendLoop ext env opts results (i + 1) r
        (⟨(i + 1) :: rest.1.xAttempts,
          .transportWait ((opts.interAttemptDelaySecs : Int) * nsPerSec) :: rest.1.waits⟩, rest.2)
      else (⟨[i + 1], []⟩, .err (.requestTimeoutGiveUp opts.attempts))
    | .urlErrFatal e => (⟨[i + 1], []⟩, .err (.transportWrapped e))
    | .otherErr e => (⟨[i + 1], []⟩, .err (.transportRaw e))
    | .ok res =>
      if 400 ≤ res.status then
        if res.status ∈ opts.retryableStatusCodes ∧ 1 ≤ r then
          let hdr := hGet res.headers "Retry-After"
          let wait : Int :=
            if opts.interAttemptUseRetryAfter = true ∧ hdr ≠ "" then
              atoi hdr 0 * nsPerSec + nsPerSec
            else
              ((opts.interAttemptDelaySecs ^
                  (env.elapsedNs i / (opts.interAttemptBackoffIntervalSecs * 1000000000) + 1)
                : Nat) : Int) * nsPerSec
          let rest := sendLoop ext env opts results (i + 1) r
          (⟨(i + 1) :: rest.1.xAttempts, .statusWait res.status wait :: rest.1.waits⟩, rest.2)
        else
          match contentFromReader ext.gunzip res.bodyRead
              [.typeOpt (hGet res.headers "Content-Type"),
               .intLen (atoi (hGet res.headers "Content-Length") 0),
               .headersOpt res.headers, .cookiesOpt res.cookies] with
          | .error _ => (⟨[i + 1], []⟩, .err (.httpStatus res.status))
          | .ok c => (⟨[i + 1], []⟩, .contentAndError c (.httpStatus res.status))
      else
        let ct0 := hGet res.headers "Content-Type"
        let ct1 := if ct0 = "image/jpg" then "image/jpeg" else ct0
        let ct :=
          if ct1 = "" ∨ ct1 = "application/octet-stream" then
            if opts.accept ≠ "" ∧ opts.accept ≠ "*" then opts.accept
            else if ext.mimeByExt opts.urlPath ≠ "" then ext.mimeByExt opts.urlPath else ct1
          else ct1
        match results with
        | .writerResults =>
          match res.bodyRead with
          | .error _ => (⟨[i + 1], []⟩, .err .readError)
          | .ok body =>
            (⟨[i + 1], []⟩,
             .ok (contentWithData ext.gunzip []
                   [.typeOpt ct, .int64Len (body.length : Int),
                    .headersOpt res.headers, .cookiesOpt res.cookies]))
        | .valueResults =>
          match contentFromReader ext.gunzip res.bodyRead
              [.typeOpt ct, .headersOpt res.headers, .cookiesOpt res.cookies] with
          | .error _ => (⟨[i + 1], []⟩, .err .readError)
          | .ok c => (⟨[i + 1], []⟩, .ok c)
        | .noResults =>
          match contentFromReader ext.gunzip res.bodyRead
              [.typeOpt ct, .intLen (atoi (hGet res.headers "Content-Length") 0),
               .headersOpt res.headers, .cookiesOpt res.cookies] with
          | .error _ => (⟨[i + 1], []⟩, .err .readError)
          | .ok c => (⟨[i + 1], []⟩, .ok c)

/-- `Send` (request.go): normalize the options, build the request content
(an error in either step returns before any network activity — empty
trace), then run the attempt loop. -/
def send (ext : Ext) (env : SendEnv) (options : Options) (results : ResultsKind) :
    SendTrace × SendResult :=
  match normalizeOptions options results with
  | .error e => (⟨[], []⟩, .err e)
  | .ok opts =>
    match buildRequestContent ext opts with
    | .error e => (⟨[], []⟩, .err e)
    | .ok _ => sendLoop ext env opts results 0 opts.attempts

/-- Does this error mention the given runtime type name, either as the
argument name or as the recorded value?  (In this library the runtime type
of an offending value is carried as the `ArgumentInvalid` value, as the
seekability gate does and as the tests check via `details.Value`.) -/
def errorNamesType (e : RequestError) (t : String) : Bool :=
  match e with
  | .argumentInvalid w (some v) => w == t || v == t
  | .argumentInvalid w none => w == t
  | _ => false

/-- Is there a length-typed option with a nonzero value in the bag? -/
def hasNonzeroLenOpt : List ContentOption → Bool
  | [] => false
  | .int64Len n :: rest => (n != 0) || hasNonzeroLenOpt rest
  | .uint64Len n :: rest => (n != 0) || hasNonzeroLenOpt rest
  | .uintLen n :: rest => (n != 0) || hasNonzeroLenOpt rest
  | .intLen n :: rest => (n != 0) || hasNonzeroLenOpt rest
  | _ :: rest => hasNonzeroLenOpt rest

/-- Is there a string (MIME-type) option in the bag? -/
def hasTypeOpt : List ContentOption → Bool
  | [] => false
  | .typeOpt _ :: _ => true
  | _ :: rest => hasTypeOpt rest

/-! ### Helper lemmas -/

theorem xor_xor_cancel (b k : Nat) : Nat.xor (Nat.xor b k) k = b := by
  show b ^^^ k ^^^ k = b
  rw [Nat.xor_assoc, Nat.xor_self, Nat.xor_zero]

theorem xorStream_involutive (ks : Nat → Nat) (l : List Nat) :
    ∀ i, xorStream ks i (xorStream ks i l) = l := by
  induction l with
  | nil => intro i; rfl
  | cons b rest ih => intro i; simp [xorStream, xor_xor_cancel, ih (i + 1)]

theorem defaultHeadersStage_length (c : Content) : (defaultHeadersStage c).Length = c.Length := by
  unfold defaultHeadersStage; split <;> rfl

theorem defaultHeadersStage_data (c : Content) : (defaultHeadersStage c).Data = c.Data := by
  unfold defaultHeadersStage; split <;> rfl

theorem defaultHeadersStage_ctype (c : Content) : (defaultHeadersStage c).ctype = c.ctype := by
  unfold defaultHeadersStage; split <;> rfl

theorem defaultHeadersStage_ne_none (c : Content) : (defaultHeadersStage c).Headers ≠ none := by
  unfold defaultHeadersStage
  split
  · simp
  · simp_all

theorem defaultLengthStage_data (c : Content) : (defaultLengthStage c).Data = c.Data := by
  unfold defaultLengthStage; split <;> rfl

theorem defaultLengthStage_ctype (c : Content) : (defaultLengthStage c).ctype = c.ctype := by
  unfold defaultLengthStage; split <;> rfl

theorem defaultLengthStage_headers (c : Content) : (defaultLengthStage c).Headers = c.Headers := by
  unfold defaultLengthStage; split <;> rfl

theorem defaultLengthStage_invariant (c : Content)
    (h : c.Length = 0 ∨ c.Length = c.Data.length) :
    (defaultLengthStage c).Length = (defaultLengthStage c).Data.length := by
  unfold defaultLengthStage
  rcases h with h | h <;> split <;> simp_all

theorem gzipStage_cases (gunzip : List Nat → Option (List Nat)) (c : Content) :
    gzipStage gunzip c = c ∨
      (gzipStage gunzip c).Length = (gzipStage gunzip c).Data.length := by
  unfold gzipStage
  split
  · cases hg : gunzip c.Data with
    | none => left; rfl
    | some u => right; rfl
  · left; rfl

theorem gzipStage_ctype (gunzip : List Nat → Option (List Nat)) (c : Content) :
    (gzipStage gunzip c).ctype = c.ctype := by
  unfold gzipStage
  split
  · cases hg : gunzip c.Data with
    | none => rfl
    | some u => rfl
  · rfl

theorem gzipStage_headers (gunzip : List Nat → Option (List Nat)) (c : Content) :
    (gzipStage gunzip c).Headers = c.Headers := by
  unfold gzipStage
  split
  · cases hg : gunzip c.Data with
    | none => rfl
    | some u => rfl
  · rfl

theorem applyOptions_data (opts : List ContentOption) :
    ∀ c : Content, (applyOptions c opts).Data = c.Data := by
  induction opts with
  | nil => intro c; rfl
  | cons o rest ih =>
    intro c
    rw [applyOptions, ih]
    cases o <;> rfl

theorem applyOptions_length_zero (opts : List ContentOption) (h : hasNonzeroLenOpt opts = false) :
    ∀ c : Content, c.Length = 0 → (applyOptions c opts).Length = 0 := by
  induction opts with
  | nil => intro c hc; exact hc
  | cons o rest ih =>
    intro c hc
    rw [applyOptions]
    cases o with
    | int64Len n =>
      rw [hasNonzeroLenOpt, Bool.or_eq_false_iff] at h
      have hn : n = 0 := by simpa using h.1
      exact ih h.2 _ (by simp [applyOption, hn, uint64OfInt])
    | uint64Len n =>
      rw [hasNonzeroLenOpt, Bool.or_eq_false_iff] at h
      have hn : n = 0 := by simpa using h.1
      exact ih h.2 _ (by simp [applyOption, hn])
    | uintLen n =>
      rw [hasNonzeroLenOpt, Bool.or_eq_false_iff] at h
      have hn : n = 0 := by simpa using h.1
      exact ih h.2 _ (by simp [applyOption, hn])
    | intLen n =>
      rw [hasNonzeroLenOpt, Bool.or_eq_false_iff] at h
      have hn : n = 0 := by simpa using h.1
      exact ih h.2 _ (by simp [applyOption, hn, uint64OfInt])
    | urlOpt u => exact ih h _ (by simpa [applyOption] using hc)
    | logOpt => exact ih h _ (by simpa [applyOption] using hc)
    | typeOpt t => exact ih h _ (by simpa [applyOption] using hc)
    | headersOpt hh => exact ih h _ (by simpa [applyOption] using hc)
    | cookiesOpt ck => exact ih h _ (by simpa [applyOption] using hc)

theorem defaultAccept_fixed (o : Options) (r : ResultsKind) :
    (defaultAccept o r).payload = o.payload ∧ (defaultAccept o r).attachment = o.attachment ∧
      (defaultAccept o r).attempts = o.attempts := by
  unfold defaultAccept; split <;> exact ⟨rfl, rfl, rfl⟩

theorem defaultTimeout_fixed (o : Options) :
    (defaultTimeout o).payload = o.payload ∧ (defaultTimeout o).attachment = o.attachment ∧
      (defaultTimeout o).attempts = o.attempts := by
  unfold defaultTimeout; split <;> exact ⟨rfl, rfl, rfl⟩

theorem defaultAttempts_fixed (o : Options) :
    (defaultAttempts o).payload = o.payload ∧ (defaultAttempts o).attachment = o.attachment := by
  unfold defaultAttempts; split <;> exact ⟨rfl, rfl⟩

theorem defaultAttempts_attempts_of_pos (o : Options) (h : 1 ≤ o.attempts) :
    (defaultAttempts o).attempts = o.attempts := by
  unfold defaultAttempts; split
  · omega
  · rfl

theorem defaultDelay_fixed (o : Options) :
    (defaultDelay o).payload = o.payload ∧ (defaultDelay o).attachment = o.attachment ∧
      (defaultDelay o).attempts = o.attempts := by
  unfold defaultDelay; split <;> exact ⟨rfl, rfl, rfl⟩

theorem defaultBackoff_fixed (o : Options) :
    (defaultBackoff o).payload = o.payload ∧ (defaultBackoff o).attachment = o.attachment ∧
      (defaultBackoff o).attempts = o.attempts := by
  unfold defaultBackoff; split <;> exact ⟨rfl, rfl, rfl⟩

theorem defaultRetryCodes_fixed (o : Options) :
    (defaultRetryCodes o).payload = o.payload ∧ (defaultRetryCodes o).attachment = o.attachment ∧
      (defaultRetryCodes o).attempts = o.attempts := by
  unfold defaultRetryCodes; split <;> exact ⟨rfl, rfl, rfl⟩

theorem applyDefaults_payload (o : Options) (r : ResultsKind) :
    (applyDefaults o r).payload = o.payload := by
  unfold applyDefaults
  rw [(defaultRetryCodes_fixed _).1, (defaultBackoff_fixed _).1, (defaultDelay_fixed _).1,
    (defaultAttempts_fixed _).1, (defaultTimeout_fixed _).1, (defaultAccept_fixed _ _).1]

theorem applyDefaults_attachment (o : Options) (r : ResultsKind) :
    (applyDefaults o r).attachment = o.attachment := by
  unfold applyDefaults
  rw [(defaultRetryCodes_fixed _).2.1, (defaultBackoff_fixed _).2.1, (defaultDelay_fixed _).2.1,
    (defaultAttempts_fixed _).2, (defaultTimeout_fixed _).2.1, (defaultAccept_fixed _ _).2.1]

theorem applyDefaults_attempts_of_pos (o : Options) (r : ResultsKind) (h : 1 ≤ o.attempts) :
    (applyDefaults o r).attempts = o.attempts := by
  unfold applyDefaults
  rw [(defaultRetryCodes_fixed _).2.2, (defaultBackoff_fixed _).2.2, (defaultDelay_fixed _).2.2,
    defaultAttempts_attempts_of_pos, (defaultTimeout_fixed _).2.2, (defaultAccept_fixed _ _).2.2]
  rw [(defaultTimeout_fixed _).2.2, (defaultAccept_fixed _ _).2.2]
  exact h

theorem buildMultipartBody_plain_fields (attempts : Nat) (attach : AttachDescr)
    (pre : List (String × String)) (hpre : ∀ p ∈ pre, strStartsWith p.1 ">" = false) :
    ∀ cidx rest, buildMultipartBody attempts attach cidx (pre ++ rest)
      = match buildMultipartBody attempts attach cidx rest with
        | .error e => .error e
        | .ok parts => .ok (pre.map (fun p => .fieldPart p.1 p.2) ++ parts) := by
  induction pre with
  | nil =>
    intro cidx rest
    simp only [List.nil_append, List.map_nil]
    cases buildMultipartBody attempts attach cidx rest <;> simp
  | cons p ps ih =>
    intro cidx rest
    have hp : strStartsWith p.1 ">" = false := hpre p (List.mem_cons_self p ps)
    have hps : ∀ q ∈ ps, strStartsWith q.1 ">" = false :=
      fun q hq => hpre q (List.mem_cons_of_mem p hq)
    obtain ⟨k, v⟩ := p
    simp only [List.cons_append, buildMultipartBody]
    simp only [hp, Bool.false_eq_true, if_false]
    have hih := ih hps cidx rest
    simp only [List.append_eq] at hih ⊢
    rw [hih]
    cases buildMultipartBody attempts attach cidx rest <;> simp

theorem normalizeOptions_payload_gate (opts : Options) (results : ResultsKind)
    (s : StreamDescr) (hurl : opts.urlPresent = true) (hA : opts.attempts > 1)
    (hp : opts.payload = some (.readerPayload s)) (hs : s.isSeeker = false) :
    normalizeOptions opts results = .error (.argumentInvalid "Payload" (some s.typeName)) := by
  have hu : ¬(opts.urlPresent = false) := by simp [hurl]
  have h2 := applyDefaults_attempts_of_pos opts results (by omega)
  have hap := applyDefaults_payload opts results
  unfold normalizeOptions
  rw [if_neg hu]
  simp only [h2, hap, hp]
  rw [if_pos hA]
  simp [hs]

theorem normalizeOptions_attachment_gate (opts : Options) (results : ResultsKind)
    (a : AttachDescr) (hurl : opts.urlPresent = true) (hA : opts.attempts > 1)
    (ha : opts.attachment = some a) (hs : a.isSeeker = false)
    (hpv : payloadSeekViolation opts.payload = false) :
    normalizeOptions opts results = .error (.argumentInvalid "Attachment" (some a.typeName)) := by
  have hu : ¬(opts.urlPresent = false) := by simp [hurl]
  have h2 := applyDefaults_attempts_of_pos opts results (by omega)
  have hap := applyDefaults_payload opts results
  have haa := applyDefaults_attachment opts results
  unfold normalizeOptions
  rw [if_neg hu]
  simp only [h2, hap, haa, ha]
  rw [if_pos hA]
  cases hp2 : opts.payload with
  | none => simp [hs]
  | some p =>
    cases p with
    | contentVal c => simp [hs]
    | contentPtr c => simp [hs]
    | readerPayload sp =>
      have hsp : sp.isSeeker = true := by
        simpa [payloadSeekViolation, hp2] using hpv
      simp [hsp, hs]
    | structVal t m => simp [hs]
    | arraySlice t m b => simp [hs]
    | mapStr l m => simp [hs]
    | unsupported t => simp [hs]

theorem normalizeOptions_ok_of_one_attempt (opts : Options) (results : ResultsKind)
    (hurl : opts.urlPresent = true) (h1 : opts.attempts = 1) :
    normalizeOptions opts results = .ok (applyDefaults opts results) := by
  have hu : ¬(opts.urlPresent = false) := by simp [hurl]
  have h2 : (applyDefaults opts results).attempts = 1 := by
    rw [applyDefaults_attempts_of_pos opts results (by omega), h1]
  unfold normalizeOptions
  rw [if_neg hu]
  simp only [h2]
  simp

/-! ### Claims -/

/-- Claim C10: for every Content and every key of 16, 24 or 32 bytes,
Decrypt(AESCTR, key) ∘ Encrypt(AESCTR, key) restores the original data, and
both Encrypt and Decrypt leave Type, Name, URL, Headers, Cookies and Length
identical to their input's. -/
theorem aesctr_encrypt_decrypt_roundtrip (ks : List Nat → Nat → Nat) (key : List Nat)
    (c : Content) (hk : key.length = 16 ∨ key.length = 24 ∨ key.length = 32) :
    ∃ e d, c.Encrypt ks .AESCTR key = .ok e ∧ e.Decrypt ks .AESCTR key = .ok d ∧
      d.Data = c.Data ∧
      e.ctype = c.ctype ∧ e.Name = c.Name ∧ e.URL = c.URL ∧ e.Headers = c.Headers ∧
      e.Cookies = c.Cookies ∧ e.Length = c.Length ∧
      d.ctype = c.ctype ∧ d.Name = c.Name ∧ d.URL = c.URL ∧ d.Headers = c.Headers ∧
      d.Cookies = c.Cookies ∧ d.Length = c.Length := by
  have hv : validAESKeyLength key = true := by
    rcases hk with h | h | h <;> simp [validAESKeyLength, h]
  simp only [Content.Encrypt, Content.Decrypt, encryptWithAESCTR, decryptWithAESCTR, hv,
    if_true]
  exact ⟨_, _, rfl, rfl, xorStream_involutive _ _ 0, rfl, rfl, rfl, rfl, rfl, rfl, rfl, rfl,
    rfl, rfl, rfl, rfl⟩

/-- Concrete key stream, key and content for the C10 witness. -/
def ksW : List Nat → Nat → Nat := fun _ i => (i + 5) % 256

def keyW : List Nat := List.replicate 16 7

def cW : Content := { ctype := "text/plain", Name := "n", Data := [1, 2, 3], Length := 3 }

theorem aesctr_encrypt_decrypt_roundtrip_witness :
    keyW.length = 16 ∧
      (∃ e d, cW.Encrypt ksW .AESCTR keyW = .ok e ∧ e.Decrypt ksW .AESCTR keyW = .ok d ∧
        d.Data = cW.Data ∧
        e.ctype = cW.ctype ∧ e.Name = cW.Name ∧ e.URL = cW.URL ∧ e.Headers = cW.Headers ∧
        e.Cookies = cW.Cookies ∧ e.Length = cW.Length ∧
        d.ctype = cW.ctype ∧ d.Name = cW.Name ∧ d.URL = cW.URL ∧ d.Headers = cW.Headers ∧
        d.Cookies = cW.Cookies ∧ d.Length = cW.Length) :=
  ⟨by decide, aesctr_encrypt_decrypt_roundtrip ksW keyW cW (Or.inl (by decide))⟩

/-- Claim C8 counterexample: an unsupported payload of runtime type `int`
produces `ArgumentInvalid.With("payload")`, which does not name the type
`int` anywhere. -/
theorem buildRequestContent_unsupported_counterexample :
    buildRequestContent {} { payload := some (.unsupported "int") } =
      .error (.argumentInvalid "payload" none) ∧
    errorNamesType (RequestError.argumentInvalid "payload" none) "int" = false :=
  ⟨rfl, rfl⟩

/-- Claim C8 (amended): a payload whose runtime type matches none of the
supported shapes makes buildRequestContent fail with an argument-invalid
error identifying the argument `payload` — without the payload's runtime
type name. -/
theorem buildRequestContent_unsupported (ext : Ext) (opts : Options) (t : String)
    (h : opts.payload = some (.unsupported t)) :
    buildRequestContent ext opts = .error (.argumentInvalid "payload" none) := by
  simp only [buildRequestContent, h]
  rfl

theorem buildRequestContent_unsupported_witness :
    buildRequestContent {} { payload := some (.unsupported "bool") } =
      .error (.argumentInvalid "payload" none) :=
  buildRequestContent_unsupported {} { payload := some (.unsupported "bool") } "bool" rfl

/-- Claim C9 counterexample: a negative `int64` length option is NOT
ignored — `ContentWithData([1,2,3], int64(-1))` gets length `2^64 - 1`
instead of `len(data) = 3`. -/
theorem contentWithData_negative_length_counterexample :
    (contentWithData (fun _ => none) [1, 2, 3] [ContentOption.int64Len (-1)]).Length ≠ 3 := by
  decide

/-- Claim C9 (amended): for every byte sequence and option list,
ContentWithData yields headers that are never nil (defaulting to an empty
map); its length equals the length of its data whenever no nonzero-valued
length option is supplied (zero-valued length options are ignored); and a
negative `int64`-range length option is reinterpreted as the unsigned value
`2^64 + m` rather than ignored. -/
theorem contentWithData_invariants (gunzip : List Nat → Option (List Nat))
    (data : List Nat) (opts : List ContentOption) :
    (contentWithData gunzip data opts).Headers ≠ none ∧
    (hasNonzeroLenOpt opts = false →
      (contentWithData gunzip data opts).Length = (contentWithData gunzip data opts).Data.length) ∧
    (∀ m : Int, -(2 ^ 63) ≤ m → m < 0 →
      (contentWithData gunzip data [.int64Len m]).Length = (m + 2 ^ 64).toNat) := by
  refine ⟨?_, ?_, ?_⟩
  · exact defaultHeadersStage_ne_none _
  · intro h
    have hlen : (applyOptions { Data := data } opts).Length = 0 :=
      applyOptions_length_zero opts h _ rfl
    unfold contentWithData
    rw [defaultHeadersStage_length, defaultHeadersStage_data]
    apply defaultLengthStage_invariant
    rcases gzipStage_cases gunzip (applyOptions { Data := data } opts) with he | he
    · left; rw [he]; exact hlen
    · right; exact he
  · intro m hm1 hm2
    have hmod : m % (2 ^ 64 : Int) = m + 2 ^ 64 := by omega
    have hne : (m + 2 ^ 64 : Int).toNat ≠ 0 := by omega
    unfold contentWithData
    rw [defaultHeadersStage_length]
    simp only [applyOptions, applyOption, uint64OfInt, hmod, gzipStage, hGetOpt]
    unfold defaultLengthStage
    split
    · exfalso; simp_all
    · rfl

/-- Claim C7: a Content built from bytes whose headers declare
`Content-Encoding: gzip` decompresses them — valid gzip yields the
decompressed plaintext and its length; invalid gzip keeps the original
compressed bytes and the declared length unchanged. -/
theorem contentWithData_gzip_transparency (gunzip : List Nat → Option (List Nat))
    (data : List Nat) (h : Header) (ck : List Cookie) (ct : String) (n : Int)
    (hn : 0 < n) (hn64 : n < 2 ^ 64)
    (hg : hGet h "Content-Encoding" = "gzip") :
    (∀ plain, gunzip data = some plain →
      (contentWithData gunzip data [.typeOpt ct, .intLen n, .headersOpt h, .cookiesOpt ck]).Data
          = plain ∧
      (contentWithData gunzip data [.typeOpt ct, .intLen n, .headersOpt h, .cookiesOpt ck]).Length
          = plain.length) ∧
    (gunzip data = none →
      (contentWithData gunzip data [.typeOpt ct, .intLen n, .headersOpt h, .cookiesOpt ck]).Data
          = data ∧
      (contentWithData gunzip data [.typeOpt ct, .intLen n, .headersOpt h, .cookiesOpt ck]).Length
          = n.toNat) := by
  have hu : uint64OfInt n = n.toNat := by
    unfold uint64OfInt
    rw [Int.emod_eq_of_lt hn.le hn64]
  constructor
  · intro plain hp
    unfold contentWithData
    rw [defaultHeadersStage_data, defaultHeadersStage_length]
    have hrec : gzipStage gunzip
        (applyOptions { Data := data } [.typeOpt ct, .intLen n, .headersOpt h, .cookiesOpt ck])
        = { ctype := ct, Length := plain.length, Data := plain, Headers := some h,
            Cookies := ck } := by
      simp only [applyOptions, applyOption, gzipStage, hGetOpt]
      simp [hg, hp]
    rw [hrec]
    unfold defaultLengthStage
    by_cases h0 : plain.length = 0
    · simp_all
    · simp_all
  · intro hp
    unfold contentWithData
    rw [defaultHeadersStage_data, defaultHeadersStage_length]
    have hrec : gzipStage gunzip
        (applyOptions { Data := data } [.typeOpt ct, .intLen n, .headersOpt h, .cookiesOpt ck])
        = { ctype := ct, Length := n.toNat, Data := data, Headers := some h, Cookies := ck } := by
      simp only [applyOptions, applyOption, gzipStage, hGetOpt, hu]
      simp [hg, hp]
    rw [hrec]
    have hne : n.toNat ≠ 0 := by omega
    unfold defaultLengthStage
    simp [hne]

/-- Concrete gzip oracle for the C7 witness: `[31, 139]` decompresses to
`[104, 105]`, everything else is invalid gzip. -/
def gunzipW : List Nat → Option (List Nat) :=
  fun d => if d = [31, 139] then some [104, 105] else none

theorem contentWithData_gzip_transparency_witness :
    (0 : Int) < 2 ∧
      ((∀ plain, gunzipW [31, 139] = some plain →
        (contentWithData gunzipW [31, 139]
            [.typeOpt "text/plain", .intLen 2, .headersOpt [("Content-Encoding", "gzip")],
             .cookiesOpt []]).Data = plain ∧
        (contentWithData gunzipW [31, 139]
            [.typeOpt "text/plain", .intLen 2, .headersOpt [("Content-Encoding", "gzip")],
             .cookiesOpt []]).Length = plain.length) ∧
      (gunzipW [31, 139] = none →
        (contentWithData gunzipW [31, 139]
            [.typeOpt "text/plain", .intLen 2, .headersOpt [("Content-Encoding", "gzip")],
             .cookiesOpt []]).Data = [31, 139] ∧
        (contentWithData gunzipW [31, 139]
            [.typeOpt "text/plain", .intLen 2, .headersOpt [("Content-Encoding", "gzip")],
             .cookiesOpt []]).Length = (2 : Int).toNat)) :=
  ⟨by decide,
   contentWithData_gzip_transparency gunzipW [31, 139] [("Content-Encoding", "gzip")] []
     "text/plain" 2 (by decide) (by decide) (by decide)⟩

theorem contentWithData_invariants_witness :
    (contentWithData gunzipW [1, 2, 3] [ContentOption.typeOpt "text/plain"]).Headers ≠ none ∧
    (hasNonzeroLenOpt [ContentOption.typeOpt "text/plain"] = false →
      (contentWithData gunzipW [1, 2, 3] [ContentOption.typeOpt "text/plain"]).Length =
        (contentWithData gunzipW [1, 2, 3] [ContentOption.typeOpt "text/plain"]).Data.length) ∧
    (∀ m : Int, -(2 ^ 63) ≤ m → m < 0 →
      (contentWithData gunzipW [1, 2, 3] [.int64Len m]).Length = (m + 2 ^ 64).toNat) :=
  contentWithData_invariants gunzipW [1, 2, 3] [ContentOption.typeOpt "text/plain"]

/-- Claim C4: for a string-keyed map payload sent with an attachment, the
multipart builder enforces, for the `>`-prefixed key and in this order: an
empty stripped key fails with "Empty key for multipart form field with
attachment"; an empty filename value fails with "Empty value for multipart
form field <key>"; a failing copy from the attachment stream fails with
"Failed to write attachment to multipart form field <key>"; a copy that
produced zero bytes fails with "Missing/Empty Attachment for multipart form
field <key>". -/
theorem multipart_attachment_errors (ext : Ext) (opts : Options) (attach : AttachDescr)
    (pre post : List (String × String)) (ek v : String) (m : Except Unit (List Nat))
    (hp : opts.payload = some (.mapStr (pre ++ (ek, v) :: post) m))
    (ha : opts.attachment = some attach)
    (hpt : opts.payloadType ≠ "application/json")
    (hpre : ∀ p ∈ pre, strStartsWith p.1 ">" = false)
    (hek : strStartsWith ek ">" = true) :
    (ek.drop 1 = "" →
      buildRequestContent ext opts =
        .error (.msg "Empty key for multipart form field with attachment")) ∧
    (ek.drop 1 ≠ "" → v = "" →
      buildRequestContent ext opts =
        .error (.msg ("Empty value for multipart form field " ++ ek.drop 1))) ∧
    (ek.drop 1 ≠ "" → v ≠ "" → ¬(opts.attempts > 1 ∧ attach.seekOk = false) →
      attach.copy 0 = .error () →
      buildRequestContent ext opts =
        .error (.msg ("Failed to write attachment to multipart form field " ++ ek.drop 1))) ∧
    (ek.drop 1 ≠ "" → v ≠ "" → ¬(opts.attempts > 1 ∧ attach.seekOk = false) →
      attach.copy 0 = .ok 0 →
      buildRequestContent ext opts =
        .error (.msg ("Missing/Empty Attachment for multipart form field " ++ ek.drop 1))) := by
  have hcore : ∀ e : RequestError,
      buildMultipartBody opts.attempts attach 0 ((ek, v) :: post) = .error e →
      buildRequestContent ext opts = .error e := by
    intro e he
    simp only [buildRequestContent, hp, buildFromPayload]
    rw [if_neg hpt]
    simp only [ha]
    rw [buildMultipartBody_plain_fields opts.attempts attach pre hpre 0 ((ek, v) :: post), he]
  have hhead : ∀ rest₁,
      buildMultipartBody opts.attempts attach 0 ((ek, v) :: rest₁)
        = if ek.drop 1 = "" then
            .error (.msg "Empty key for multipart form field with attachment")
          else if v = "" then
            .error (.msg ("Empty value for multipart form field " ++ ek.drop 1))
          else if opts.attempts > 1 ∧ attach.seekOk = false then
            .error (.msg ("Failed to seek to beginning of attachment for field " ++ ek.drop 1))
          else
            match attach.copy 0 with
            | .error _ =>
              .error (.msg ("Failed to write attachment to multipart form field " ++ ek.drop 1))
            | .ok written =>
              if written = 0 then
                .error (.msg ("Missing/Empty Attachment for multipart form field " ++ ek.drop 1))
              else
                match buildMultipartBody opts.attempts attach 1 rest₁ with
                | .error e => .error e
                | .ok parts => .ok (.filePart (ek.drop 1) v written :: parts) := by
    intro rest₁
    simp only [buildMultipartBody, hek, if_true]
  refine ⟨?_, ?_, ?_, ?_⟩
  · intro hk
    exact hcore _ (by rw [hhead, if_pos hk])
  · intro hk hv
    exact hcore _ (by rw [hhead, if_neg hk, if_pos hv])
  · intro hk hv hseek hcopy
    exact hcore _ (by rw [hhead, if_neg hk, if_neg hv, if_neg hseek, hcopy])
  · intro hk hv hseek hcopy
    exact hcore _ (by rw [hhead, if_neg hk, if_neg hv, if_neg hseek, hcopy]; simp)

/-- Concrete attachment for the C4 witness: a seekable stream whose copy
yields 4 bytes. -/
def attachW : AttachDescr :=
  { isSeeker := true, typeName := "bytes.Reader", seekOk := true, copy := fun _ => .ok 4 }

theorem multipart_attachment_errors_witness :
    buildRequestContent {}
      { payload := some (.mapStr [("ID", "1234"), (">file", "")] (.ok [])),
        attachment := some attachW, attempts := 1 } =
      .error (.msg "Empty value for multipart form field file") :=
  (multipart_attachment_errors {}
      { payload := some (.mapStr [("ID", "1234"), (">file", "")] (.ok [])),
        attachment := some attachW, attempts := 1 }
      attachW [("ID", "1234")] [] ">file" "" (.ok [])
      rfl rfl (by decide) (by decide) (by decide)).2.1 (by decide) rfl

/-- Claim C3: with attempts > 1, a payload that is a readable stream without
seeking, or an attachment without seeking, makes Send fail before any
network activity (empty trace: no attempt made, no header set, no sleep)
with ArgumentInvalid naming the offending value's runtime type; with
attempts = 1 the same options pass this validation. -/
theorem send_seekability_gate (ext : Ext) (env : SendEnv) (opts : Options)
    (results : ResultsKind) (hurl : opts.urlPresent = true) :
    (∀ s : StreamDescr, opts.attempts > 1 → opts.payload = some (.readerPayload s) →
      s.isSeeker = false →
      send ext env opts results
        = (⟨[], []⟩, .err (.argumentInvalid "Payload" (some s.typeName)))) ∧
    (∀ a : AttachDescr, opts.attempts > 1 → opts.attachment = some a → a.isSeeker = false →
      payloadSeekViolation opts.payload = false →
      send ext env opts results
        = (⟨[], []⟩, .err (.argumentInvalid "Attachment" (some a.typeName)))) ∧
    (opts.attempts = 1 → ∃ o, normalizeOptions opts results = .ok o) := by
  refine ⟨?_, ?_, ?_⟩
  · intro s hA hp hs
    unfold send
    rw [normalizeOptions_payload_gate opts results s hurl hA hp hs]
  · intro a hA ha hs hpv
    unfold send
    rw [normalizeOptions_attachment_gate opts results a hurl hA ha hs hpv]
  · intro h1
    exact ⟨_, normalizeOptions_ok_of_one_attempt opts results hurl h1⟩

/-- A non-seekable reader payload, as in the repository's seekability test. -/
def sW : StreamDescr :=
  { isSeeker := false, typeName := "request_test.failingReader", bytes := .ok [] }

/-- A transport that always resets the connection, for concrete runs. -/
def envW : SendEnv :=
  { outcomes := fun _ => .connReset "read: connection reset by peer", elapsedNs := fun _ => 0 }

theorem send_seekability_gate_witness :
    send {} envW { payload := some (.readerPayload sW), attempts := 5 } .noResults
      = (⟨[], []⟩, .err (.argumentInvalid "Payload" (some "request_test.failingReader"))) ∧
    (∃ o, normalizeOptions { payload := some (.readerPayload sW), attempts := 1 } .noResults
      = .ok o) :=
  ⟨(send_seekability_gate {} envW { payload := some (.readerPayload sW), attempts := 5 }
      .noResults rfl).1 sW (by decide) rfl rfl,
   (send_seekability_gate {} envW { payload := some (.readerPayload sW), attempts := 1 }
      .noResults rfl).2.2 rfl⟩

/-- Does a Send result surface a (wrapped or raw) transport error? -/
def surfacesTransportError : SendResult → Bool
  | .err (.transportWrapped _) => true
  | .err (.transportRaw _) => true
  | _ => false

/-- Claim C5 counterexample: a retryable transport error (connection reset)
on the last remaining attempt makes Send return the request-timeout
"giving up" error — not the wrapped transport error the claim promises. -/
theorem send_transport_error_last_attempt_counterexample :
    (send {} envW { attempts := 1 } .noResults).2 = .err (.requestTimeoutGiveUp 1) ∧
    surfacesTransportError ((send {} envW { attempts := 1 } .noResults).2) = false :=
  ⟨rfl, rfl⟩

/-- Claim C5 (amended): a transport error classified retryable (timeout,
temporary, unexpected EOF, deadline exceeded, connection reset) occurring on
the last remaining attempt makes Send break out of the loop and return the
request-timeout "giving up after N attempts" error; the wrapped transport
error is surfaced (immediately) only for a non-retryable url transport
error. -/
theorem sendLoop_transport_errors (ext : Ext) (env : SendEnv) (opts : Options)
    (results : ResultsKind) (i : Nat) (e : String) :
    ((env.outcomes i = .connReset e ∨ env.outcomes i = .urlErrRetryable e) →
      (sendLoop ext env opts results i 1).2 = .err (.requestTimeoutGiveUp opts.attempts)) ∧
    (env.outcomes i = .urlErrFatal e →
      ∀ r, (sendLoop ext env opts results i (r + 1)).2 = .err (.transportWrapped e)) := by
  constructor
  · rintro (h | h) <;> simp [sendLoop, h]
  · intro h r
    simp [sendLoop, h]

theorem sendLoop_transport_errors_witness :
    (sendLoop {} envW { attempts := 1 } .noResults 0 1).2 = .err (.requestTimeoutGiveUp 1) :=
  (sendLoop_transport_errors {} envW { attempts := 1 } .noResults 0
    "read: connection reset by peer").1 (Or.inl rfl)

/-- Claim C1: when the latest response carries a retryable status while
attempts remain, the wait before the next attempt is: with
`useRetryAfterHeader` set and a Retry-After header present, the header's
value in seconds plus one second; otherwise `interAttemptDelay` in seconds
raised to the power `floor(elapsed / interAttemptBackoffInterval) + 1`,
in seconds. -/
theorem sendLoop_retry_wait (ext : Ext) (env : SendEnv) (opts : Options)
    (results : ResultsKind) (i r : Nat) (resp : Response)
    (hout : env.outcomes i = .ok resp)
    (hst : 400 ≤ resp.status)
    (hretry : resp.status ∈ opts.retryableStatusCodes)
    (hrem : 1 ≤ r) :
    ∃ w : Int,
      (sendLoop ext env opts results i (r + 1)).1.waits.head?
        = some (.statusWait resp.status w) ∧
      (∀ v : Int, opts.interAttemptUseRetryAfter = true →
        (hGet resp.headers "Retry-After").toInt? = some v → w = (v + 1) * nsPerSec) ∧
      ((opts.interAttemptUseRetryAfter = false ∨ hGet resp.headers "Retry-After" = "") →
        w = ((opts.interAttemptDelaySecs ^
            (env.elapsedNs i / (opts.interAttemptBackoffIntervalSecs * 1000000000) + 1)
            : Nat) : Int) * nsPerSec) := by
  by_cases hc : opts.interAttemptUseRetryAfter = true ∧ hGet resp.headers "Retry-After" ≠ ""
  · refine ⟨atoi (hGet resp.headers "Retry-After") 0 * nsPerSec + nsPerSec, ?_, ?_, ?_⟩
    · simp only [sendLoop, hout]
      rw [if_pos hst, if_pos ⟨hretry, hrem⟩, if_pos hc]
      rfl
    · intro v _ hv
      have : atoi (hGet resp.headers "Retry-After") 0 = v := by simp [atoi, hv]
      rw [this]
      ring
    · intro hd
      rcases hd with hd | hd
      · exact absurd hc.1 (by simp [hd])
      · exact absurd hd hc.2
  · refine ⟨((opts.interAttemptDelaySecs ^
        (env.elapsedNs i / (opts.interAttemptBackoffIntervalSecs * 1000000000) + 1)
        : Nat) : Int) * nsPerSec, ?_, ?_, ?_⟩
    · simp only [sendLoop, hout]
      rw [if_pos hst, if_pos ⟨hretry, hrem⟩, if_neg hc]
      rfl
    · intro v hua hv
      have hd : hGet resp.headers "Retry-After" = "" := by
        by_contra hne
        exact hc ⟨hua, hne⟩
      rw [hd, show ("" : String).toInt? = none from rfl] at hv
      exact absurd hv (by simp)
    · intro _
      rfl

/-- A 503 response carrying `Retry-After: 7`, for the C1 witness. -/
def respRA : Response :=
  { status := 503, headers := [("Retry-After", "7")], cookies := [], bodyRead := .ok [] }

def envRA : SendEnv := { outcomes := fun _ => .ok respRA, elapsedNs := fun _ => 0 }

def optsRA : Options :=
  { retryableStatusCodes := [503], attempts := 2, interAttemptDelaySecs := 3,
    interAttemptBackoffIntervalSecs := 300, interAttemptUseRetryAfter := true }

theorem applyOptions_ctype (opts : List ContentOption) (h : hasTypeOpt opts = false) :
    ∀ c : Content, (applyOptions c opts).ctype = c.ctype := by
  induction opts with
  | nil => intro c; rfl
  | cons o rest ih =>
    intro c
    cases o with
    | typeOpt t => exact absurd h (by simp [hasTypeOpt])
    | urlOpt u => rw [applyOptions, ih h]; rfl
    | logOpt => rw [applyOptions, ih h]; rfl
    | int64Len n => rw [applyOptions, ih h]; rfl
    | uint64Len n => rw [applyOptions, ih h]; rfl
    | uintLen n => rw [applyOptions, ih h]; rfl
    | intLen n => rw [applyOptions, ih h]; rfl
    | headersOpt hh => rw [applyOptions, ih h]; rfl
    | cookiesOpt ck => rw [applyOptions, ih h]; rfl

theorem contentWithData_ctype (gunzip : List Nat → Option (List Nat)) (data : List Nat)
    (t : String) (rest : List ContentOption) (h : hasTypeOpt rest = false) :
    (contentWithData gunzip data (.typeOpt t :: rest)).ctype = t := by
  unfold contentWithData
  rw [defaultHeadersStage_ctype, defaultLengthStage_ctype, gzipStage_ctype, applyOptions,
    applyOptions_ctype rest h]
  rfl

/-- The content-type resolution rule as the claim states it: correct the
`image/jpg` alias to `image/jpeg`; then, when the type is empty or
`application/octet-stream`, replace it with the caller's non-empty,
non-wildcard Accept value, else with the non-empty MIME lookup for the URL
path's extension, else keep it. -/
def specEffectiveContentType (contentType accept mimeLookup : String) : String :=
  let t := if contentType = "image/jpg" then "image/jpeg" else contentType
  if t = "" ∨ t = "application/octet-stream" then
    if accept ≠ "" ∧ accept ≠ "*" then accept
    else if mimeLookup ≠ "" then mimeLookup else t
  else t

/-- Claim C6: on a terminal successful response the content type of the
Content returned by the attempt loop — whichever materialization path the
`results` argument selects — is the response Content-Type corrected per the
claimed rule (jpg alias fix, Accept fallback, MIME-by-extension lookup). -/
theorem sendLoop_success_content_type (ext : Ext) (env : SendEnv) (opts : Options)
    (results : ResultsKind) (i r : Nat) (resp : Response) (body : List Nat)
    (hout : env.outcomes i = .ok resp)
    (hst : resp.status < 400)
    (hbody : resp.bodyRead = .ok body) :
    ∃ c, (sendLoop ext env opts results i (r + 1)).2 = .ok c ∧
      c.ctype = specEffectiveContentType (hGet resp.headers "Content-Type") opts.accept
        (ext.mimeByExt opts.urlPath) := by
  have hnst : ¬(400 ≤ resp.status) := by omega
  cases results with
  | noResults =>
    simp only [sendLoop, hout]
    rw [if_neg hnst, hbody]
    simp only [contentFromReader]
    exact ⟨_, rfl, contentWithData_ctype _ _ _ _ rfl⟩
  | writerResults =>
    simp only [sendLoop, hout]
    rw [if_neg hnst, hbody]
    exact ⟨_, rfl, contentWithData_ctype _ _ _ _ rfl⟩
  | valueResults =>
    simp only [sendLoop, hout]
    rw [if_neg hnst, hbody]
    simp only [contentFromReader]
    exact ⟨_, rfl, contentWithData_ctype _ _ _ _ rfl⟩

theorem sendLoop_all_retryable (ext : Ext) (env : SendEnv) (opts : Options)
    (results : ResultsKind) (respF : Nat → Response) :
    ∀ r i,
      (∀ j, j < r + 1 → env.outcomes (i + j) = .ok (respF (i + j)) ∧
        400 ≤ (respF (i + j)).status ∧ (respF (i + j)).status ∈ opts.retryableStatusCodes) →
      ∀ body, (respF (i + r)).bodyRead = .ok body →
      (sendLoop ext env opts results i (r + 1)).1.xAttempts = List.range' (i + 1) (r + 1) ∧
      (sendLoop ext env opts results i (r + 1)).2
        = .contentAndError
            (contentWithData ext.gunzip body
              [.typeOpt (hGet (respF (i + r)).headers "Content-Type"),
               .intLen (atoi (hGet (respF (i + r)).headers "Content-Length") 0),
               .headersOpt (respF (i + r)).headers, .cookiesOpt (respF (i + r)).cookies])
            (.httpStatus (respF (i + r)).status) := by
  intro r
  induction r with
  | zero =>
    intro i h body hb
    obtain ⟨h1, h2, h3⟩ := h 0 (by omega)
    simp only [Nat.add_zero] at h1 h2 h3 hb
    have hc : ¬((respF i).status ∈ opts.retryableStatusCodes ∧ 1 ≤ 0) := by
      rintro ⟨_, hh⟩; omega
    simp only [sendLoop, h1]
    rw [if_pos h2, if_neg hc, hb]
    refine ⟨?_, ?_⟩
    · simp [contentFromReader, List.range']
    · simp [contentFromReader]
  | succ r ih =>
    intro i h body hb
    obtain ⟨h1, h2, h3⟩ := h 0 (by omega)
    simp only [Nat.add_zero] at h1 h2 h3
    have hrest : ∀ j, j < r + 1 → env.outcomes (i + 1 + j) = .ok (respF (i + 1 + j)) ∧
        400 ≤ (respF (i + 1 + j)).status ∧
        (respF (i + 1 + j)).status ∈ opts.retryableStatusCodes := by
      intro j hj
      have hh := h (j + 1) (by omega)
      simpa [show i + (j + 1) = i + 1 + j by omega] using hh
    have hb' : (respF (i + 1 + r)).bodyRead = .ok body := by
      simpa [show i + 1 + r = i + (r + 1) by omega] using hb
    have ihr := ih (i + 1) hrest body hb'
    simp only [sendLoop, h1]
    rw [if_pos h2, if_pos ⟨h3, by omega⟩]
    have hidx : i + 1 + r = i + (r + 1) := by omega
    constructor
    · show (i + 1) :: (sendLoop ext env opts results (i + 1) (r + 1)).1.xAttempts
        = List.range' (i + 1) (r + 1 + 1)
      rw [ihr.1]
      rfl
    · show (sendLoop ext env opts results (i + 1) (r + 1)).2 = _
      rw [ihr.2, hidx]

/-- Claim C2: with every attempt's response carrying a retryable error
status, Send with attempts = N performs exactly N attempts — the 1-based
X-Attempt header runs 1 through N in order — and then returns the buffered
error-body Content together with the status-derived error. -/
theorem send_retry_exhaustion (ext : Ext) (env : SendEnv) (opts o : Options)
    (results : ResultsKind) (N : Nat) (respF : Nat → Response) (body : List Nat)
    (hn : normalizeOptions opts results = .ok o)
    (hbuild : ∃ c0, buildRequestContent ext o = .ok c0)
    (hN : o.attempts = N) (hN1 : 1 ≤ N)
    (hall : ∀ j, j < N → env.outcomes j = .ok (respF j) ∧ 400 ≤ (respF j).status ∧
      (respF j).status ∈ o.retryableStatusCodes)
    (hbody : (respF (N - 1)).bodyRead = .ok body) :
    (send ext env opts results).1.xAttempts = List.range' 1 N ∧
    (send ext env opts results).2 = .contentAndError
      (contentWithData ext.gunzip body
        [.typeOpt (hGet (respF (N - 1)).headers "Content-Type"),
         .intLen (atoi (hGet (respF (N - 1)).headers "Content-Length") 0),
         .headersOpt (respF (N - 1)).headers, .cookiesOpt (respF (N - 1)).cookies])
      (.httpStatus (respF (N - 1)).status) := by
  obtain ⟨c0, hb⟩ := hbuild
  have hsend : send ext env opts results = sendLoop ext env o results 0 o.attempts := by
    unfold send
    simp only [hn, hb]
  obtain ⟨p, hp⟩ : ∃ p, N = p + 1 := ⟨N - 1, by omega⟩
  subst hp
  have hzero : ∀ j, j < p + 1 → env.outcomes (0 + j) = .ok (respF (0 + j)) ∧
      400 ≤ (respF (0 + j)).status ∧ (respF (0 + j)).status ∈ o.retryableStatusCodes := by
    intro j hj
    simpa using hall j (by omega)
  have hb0 : (respF (0 + p)).bodyRead = .ok body := by
    simpa [show (0 : Nat) + p = p + 1 - 1 by omega] using hbody
  have hmain := sendLoop_all_retryable ext env o results respF p 0 hzero body hb0
  rw [hsend, hN]
  simpa [show (0 : Nat) + p = p + 1 - 1 by omega] using hmain

/-- A 503 response with body bytes, for the C2 witness. -/
def resp503 : Response :=
  { status := 503, headers := [("Content-Type", "text/plain"), ("Content-Length", "2")],
    cookies := [], bodyRead := .ok [104, 105] }

def env503 : SendEnv := { outcomes := fun _ => .ok resp503, elapsedNs := fun _ => 0 }

/-- The options of the C2 witness after normalization. -/
def optsNNorm : Options :=
  { accept := "*", timeoutNs := 2000000000, attempts := 2, interAttemptDelaySecs := 3,
    interAttemptBackoffIntervalSecs := 300, retryableStatusCodes := [503] }

theorem send_retry_exhaustion_witness :
    (send {} env503 { attempts := 2, retryableStatusCodes := [503] } .noResults).1.xAttempts
      = List.range' 1 2 ∧
    (send {} env503 { attempts := 2, retryableStatusCodes := [503] } .noResults).2
      = .contentAndError
          (contentWithData (Ext.gunzip {}) [104, 105]
            [.typeOpt (hGet resp503.headers "Content-Type"),
             .intLen (atoi (hGet resp503.headers "Content-Length") 0),
             .headersOpt resp503.headers, .cookiesOpt resp503.cookies])
          (.httpStatus resp503.status) :=
  send_retry_exhaustion {} env503 { attempts := 2, retryableStatusCodes := [503] } optsNNorm
    .noResults 2 (fun _ => resp503) [104, 105] rfl ⟨{}, rfl⟩ rfl (by decide)
    (by
      intro j hj
      refine ⟨rfl, ?_, ?_⟩
      · show 400 ≤ resp503.status
        decide
      · show resp503.status ∈ optsNNorm.retryableStatusCodes
        decide) rfl

/-- A 200 response mislabelled `image/jpg`, for the C6 witness. -/
def respCT : Response :=
  { status := 200, headers := [("Content-Type", "image/jpg")], cookies := [],
    bodyRead := .ok [104, 105] }

def envCT : SendEnv := { outcomes := fun _ => .ok respCT, elapsedNs := fun _ => 0 }

theorem sendLoop_success_content_type_witness :
    respCT.status < 400 ∧
      (∃ c, (sendLoop {} envCT { accept := "*" } .noResults 0 1).2 = .ok c ∧
        c.ctype = specEffectiveContentType (hGet respCT.headers "Content-Type")
          (Options.accept { accept := "*" }) (Ext.mimeByExt {} (Options.urlPath { accept := "*" }))) :=
  ⟨by decide,
   sendLoop_success_content_type {} envCT { accept := "*" } .noResults 0 0 respCT [104, 105]
     rfl (by decide) rfl⟩

theorem sendLoop_retry_wait_witness :
    400 ≤ respRA.status ∧ respRA.status ∈ optsRA.retryableStatusCodes ∧
      (∃ w : Int,
        (sendLoop {} envRA optsRA .noResults 0 2).1.waits.head?
          = some (.statusWait respRA.status w) ∧
        (∀ v : Int, optsRA.interAttemptUseRetryAfter = true →
          (hGet respRA.headers "Retry-After").toInt? = some v → w = (v + 1) * nsPerSec) ∧
        ((optsRA.interAttemptUseRetryAfter = false ∨ hGet respRA.headers "Retry-After" = "") →
          w = ((optsRA.interAttemptDelaySecs ^
              (envRA.elapsedNs 0 / (optsRA.interAttemptBackoffIntervalSecs * 1000000000) + 1)
              : Nat) : Int) * nsPerSec)) :=
  ⟨by decide, by decide,
   sendLoop_retry_wait {} envRA optsRA .noResults 0 1 respRA rfl (by decide) (by decide)
     (by decide)⟩

end GoRequest
